import Mathlib

/-!
A shallow embedding of the command interpreter of `astmultidialer.c`
(AstMultiDialer: 9-line CLI dialer for Asterisk), together with theorems
settling the specification claims about it.

C strings are modelled as `List Char`; the global `lines` array as a total
map `Nat → LineState`; AMI (Asterisk Manager Interface) responses as an
`Env` oracle; each AMI action issued is recorded in a call trace, each
`fprintf(stderr, ...)` diagnostic in a message trace, and each
`sleep`/`usleep` in a sleep trace (in milliseconds).
-/

set_option maxRecDepth 4096

namespace AstMultiDialer

/-- The NUL character, i.e. what `*s` reads at the end of a C string. -/
def nul : Char := Char.ofNat 0

/-- C `isspace` (the six ASCII whitespace characters). -/
def isspace (c : Char) : Bool :=
  c = ' ' || c = '\t' || c = '\n' || c = Char.ofNat 11 || c = Char.ofNat 12 || c = '\r'

/-- The `ltrim` macro of astmultidialer.c: advance past leading whitespace. -/
def ltrim (s : List Char) : List Char := s.dropWhile isspace

/-- Accumulating digit scan of C `atoi`: consume leading decimal digits. -/
def atoiDigits (acc : Nat) : List Char → Nat
  | [] => acc
  | c :: rest => if c.isDigit then atoiDigits (acc * 10 + (c.toNat - 48)) rest else acc

/-- C `atoi`: skip leading whitespace, optional sign, then leading digits
(0 when there are none). -/
def atoi (s : List Char) : Int :=
  match s.dropWhile isspace with
  | '-' :: rest => - (atoiDigits 0 rest : Int)
  | '+' :: rest => (atoiDigits 0 rest : Int)
  | rest => (atoiDigits 0 rest : Int)

/-- One slot of the `struct line` array: derived identity strings, the bound
channel name, and the `offhook` bit. -/
structure LineState where
  devicename : List Char
  dialstr : List Char
  dialexten : List Char
  channel : List Char
  offhook : Bool
deriving DecidableEq, Repr

/-- Zero-initialised slot, as the static `lines` array starts. -/
def initLine : LineState := ⟨[], [], [], [], false⟩

/-- The `lines` registry as a total map; the C array has valid indices 0–9
(`struct line lines[MAX_LINES + 1]` with `MAX_LINES = 9`). -/
def Lines : Type := Nat → LineState

/-- Initial registry: every slot zero-initialised. -/
def initLines : Lines := fun _ => initLine

/-- Write one registry slot. -/
def setLine (lines : Lines) (i : Nat) (l : LineState) : Lines :=
  fun j => if j = i then l else lines j

/-- One AMI action invocation, with the argument values the C code passes. -/
inductive AmiAction where
  | originate (channel context exten priority : List Char)
  | hangup (channel : List Char) (cause : Nat)
  | sendFlash (channel : List Char)
  | playDTMF (channel : List Char) (digit : Char)
  | showChannels
deriving DecidableEq, Repr

/-- Oracle for the AMI responses a session receives: `none` models a null
response (`REQUIRE_RESP` failure), `some b` a response with success flag `b`.
`channelList` is the `Channel` key of each event of the CoreShowChannels
response, framing entries included; `none` models a null response. -/
structure Env where
  originateResp : Option Bool
  hangupResp : Nat → Option Bool
  flashResp : Option Bool
  channelList : Option (List (List Char))

/-- `PEER_PREFIX` configurable setting. -/
def peerPrefix : List Char := "autotest".toList

/-- `PLAR_CODE` configurable setting. -/
def plarCode : List Char := "01".toList

/-- `PLAR_DIALPLAN_CONTEXT` configurable setting. -/
def plarContext : List Char := "idle".toList

/-- `PLAR_DIALPLAN_EXTEN` configurable setting. -/
def plarExten : List Char := "9999".toList

/-- The three `snprintf` calls at the top of every line command: re-derive
`devicename`, `dialstr` and `dialexten` from the line number (buffer sizes
64, 84 and 64, hence the truncations). -/
def deriveLine (l : LineState) (n : Nat) : LineState :=
  { l with
    devicename := ("PJSIP/".toList ++ peerPrefix ++ (toString n).toList).take 63
    dialstr := ("PJSIP/".toList ++ plarCode ++ "@".toList ++ peerPrefix
      ++ (toString n).toList).take 83
    dialexten := plarContext.take 63 }

/-- `find_channel`: query the channel list; scan events `1 .. size - 2`
(header and trailer excluded) for the first `Channel` value having the
device name as a string prefix; on a match, `strncpy` it into the slot's
128-byte channel buffer. Returns the bound channel (`none` on failure)
and the diagnostics printed. -/
def find_channel (env : Env) (pfx : List Char) : Option (List Char) × List String :=
  match env.channelList with
  | none => (none, ["Failed to show channels"])
  | some entries =>
    match ((entries.drop 1).dropLast).find? (fun c => pfx.isPrefixOf c) with
    | some c => (some (c.take 127), [])
    | none => (none, ["Failed to find channel for " ++ String.mk pfx])

/-- The `while (*command)` loop of the `dt` handler: one PlayDTMF action per
remaining character, in order. -/
def play_dtmf_loop (ch : List Char) : List Char → List AmiAction
  | [] => []
  | c :: rest => AmiAction.playDTMF ch c :: play_dtmf_loop ch rest

/-- Return value of `run_command`: 0 keeps the session loop going, -1 quits. -/
inductive CmdResult where
  | ok
  | quit
deriving DecidableEq, Repr

/-- Observable outcome of one `run_command` invocation. -/
structure RunResult where
  lines : Lines
  calls : List AmiAction
  msgs : List String
  sleepsMs : List Int
  ret : CmdResult

/-- The line-command arm of `run_command`'s dispatch (`n` already known to be
1–9): re-derive the slot's identity strings, then `switch` on the case-folded
verb character. -/
def lineCommand (env : Env) (lines0 : Lines) (n : Nat) (command : List Char) : RunResult :=
  let lines := setLine lines0 n (deriveLine (lines0 n) n)
  let L := lines n
  let verbRaw := command.headD nul
  let verb := verbRaw.toLower
  let rest := command.drop 1
  if verb = 'a' then
    ⟨lines, [], ["XXX Not implemented yet"], [], .ok⟩
  else if verb = 'o' then
    let call := AmiAction.originate L.dialstr L.dialexten plarExten ['1']
    match env.originateResp with
    | none => ⟨lines, [call], ["No response"], [], .ok⟩
    | some true =>
      let lines2 := setLine lines n { L with offhook := true }
      match find_channel env L.devicename with
      | (some c, m) =>
        ⟨setLine lines2 n { L with offhook := true, channel := c },
          [call, .showChannels], m ++ ["OK"], [], .ok⟩
      | (none, m) => ⟨lines2, [call, .showChannels], m, [], .ok⟩
    | some false => ⟨lines, [call], ["Failed to go off hook on line " ++ toString n], [], .ok⟩
  else if verb = 'h' then
    if !L.offhook then ⟨lines, [], ["Can't do this action on on-hook line"], [], .ok⟩
    else
      let call := AmiAction.hangup L.channel 16
      match env.hangupResp n with
      | none => ⟨lines, [call], ["No response"], [], .ok⟩
      | some true => ⟨setLine lines n { L with offhook := false }, [call], ["OK"], [], .ok⟩
      | some false =>
        ⟨lines, [call], ["Failed to go on hook on line " ++ toString n], [], .ok⟩
  else if verb = 'f' then
    if !L.offhook then ⟨lines, [], ["Can't do this action on on-hook line"], [], .ok⟩
    else
      let call := AmiAction.sendFlash L.channel
      match env.flashResp with
      | none => ⟨lines, [call], ["No response"], [], .ok⟩
      | some true => ⟨lines, [call], ["OK"], [], .ok⟩
      | some false =>
        ⟨lines, [call], ["Failed to send flash on line " ++ toString n], [], .ok⟩
  else if verb = 'd' then
    if !L.offhook then ⟨lines, [], ["Can't do this action on on-hook line"], [], .ok⟩
    else
      let dialType := rest.headD nul
      let tail := rest.drop 1
      if dialType = 't' then ⟨lines, play_dtmf_loop L.channel tail, [], [], .ok⟩
      else if dialType = 'p' then ⟨lines, [], ["Dial pulse not yet supported"], [], .ok⟩
      else ⟨lines, [], ["Invalid dial type " ++ String.mk [dialType]], [], .ok⟩
  else
    ⟨lines, [], ["Unknown line command '" ++ String.mk [verbRaw] ++ "'"], [], .ok⟩

/-- One pass of the `hangup_all` loop body at index `i`: if the slot is off
hook, issue a Hangup and (on a successful response) mark it on hook; a null
or failed response leaves the slot untouched and the loop continues. -/
structure HAcc where
  lines : Lines
  calls : List AmiAction
  msgs : List String

/-- Loop body of `hangup_all` for one line index. -/
def hangup_step (env : Env) (acc : HAcc) (i : Nat) : HAcc :=
  let L := acc.lines i
  if L.offhook then
    let call := AmiAction.hangup L.channel 16
    match env.hangupResp i with
    | some true =>
      ⟨setLine acc.lines i { L with offhook := false }, acc.calls ++ [call],
        acc.msgs ++ ["Hung up line " ++ toString i]⟩
    | some false => ⟨acc.lines, acc.calls ++ [call], acc.msgs⟩
    | none => ⟨acc.lines, acc.calls ++ [call], acc.msgs⟩
  else acc

/-- `hangup_all`: iterate the loop body over lines 1 to `MAX_LINES` (9). -/
def hangup_all (env : Env) (lines : Lines) : HAcc :=
  List.foldl (hangup_step env) ⟨lines, [], []⟩ [1, 2, 3, 4, 5, 6, 7, 8, 9]

/-- The global-command arm of `run_command`: `s` is compared with `==`
(case-sensitively), `ms` with `strncasecmp`, `q` and `k` with `strcasecmp`.
Sleeps are recorded in milliseconds. -/
def globalCommand (env : Env) (lines : Lines) (command : List Char) : RunResult :=
  if command.headD nul = 's' then
    ⟨lines, [], [], [atoi (ltrim (command.drop 1)) * 1000], .ok⟩
  else if (command.take 2).map Char.toLower = ['m', 's'] then
    ⟨lines, [], [], [atoi (ltrim (command.drop 2))], .ok⟩
  else if command.map Char.toLower = ['q'] then
    ⟨lines, [], [], [], .quit⟩
  else if command.map Char.toLower = ['k'] then
    let h := hangup_all env lines
    ⟨h.lines, h.calls, h.msgs, [], .ok⟩
  else
    ⟨lines, [], ["Unknown global command '" ++ String.mk command ++ "'"], [], .ok⟩

/-- `run_command`: truncate at the first `;`, test the FIRST character for a
digit (no whitespace skip before this test), reject a parse value of 0,
advance one character past the first digit, trim, and dispatch. A parsed
line number ≥ 10 makes the C code index `lines[n]` past the end of the
10-element array: that out-of-bounds access is modelled as `none`
(undefined behaviour); the source performs no range check beyond `!n`. -/
def run_command (env : Env) (lines : Lines) (input : List Char) : Option RunResult :=
  let command := input.takeWhile (fun c => c ≠ ';')
  if (command.headD nul).isDigit then
    let n := (atoi command).toNat
    if n = 0 then
      some ⟨lines, [], ["Line number must be between 1 and 9"], [], .ok⟩
    else if n ≤ 9 then
      some (lineCommand env lines n (ltrim (command.drop 1)))
    else
      none
  else
    some (globalCommand env lines command)

/-- Registry state after one command (unchanged when the run is undefined). -/
def runLines (env : Env) (lines : Lines) (input : List Char) : Lines :=
  match run_command env lines input with
  | some r => r.lines
  | none => lines

/-- The run outcome, defaulting to a no-op outcome when undefined. -/
def runResultD (env : Env) (lines : Lines) (input : List Char) : RunResult :=
  (run_command env lines input).getD ⟨lines, [], [], [], .ok⟩

/-- The digit character for a line number 0–9. -/
def digitChar (n : Nat) : Char := Char.ofNat (48 + n)

/-- Observable steps of the teardown routines. -/
inductive TStep where
  | msg (s : String)
  | restoreTerm
  | amiCall (a : AmiAction)
  | amiDisconnect
  | exitProcess (failure : Bool)
deriving DecidableEq, Repr

/-- `simple_disconnect_callback` (forced AMI disconnect): print a notice,
restore the terminal, `exit(EXIT_FAILURE)`. It hangs up no lines and does
not disconnect the client. -/
def simple_disconnect_callback (lines : Lines) : List TStep × Lines :=
  ([.msg "AMI was forcibly disconnected...", .restoreTerm, .exitProcess true], lines)

/-- `restore_term` (SIGINT handler): restore the terminal, run `hangup_all`,
disconnect, `exit(EXIT_FAILURE)`. -/
def restore_term (env : Env) (lines : Lines) : List TStep × Lines :=
  let h := hangup_all env lines
  ([.restoreTerm] ++ h.calls.map TStep.amiCall ++ h.msgs.map TStep.msg
    ++ [.amiDisconnect, .msg "AstMultiDialer exiting...", .exitProcess true], h.lines)

/-- The normal exit path of `multidialer` (after `q` or end of input):
`ami_disconnect`, restore the terminal, return 0 (so `main` exits with
success status). It hangs up no lines. -/
def multidialer_normal_exit (lines : Lines) : List TStep × Lines :=
  ([.amiDisconnect, .restoreTerm, .exitProcess false], lines)

/-- Net effect of the `hangup_all` loop on one slot: an OffHook slot whose
Hangup got a successful response goes on hook; every other slot (OnHook, or
with a null/failed response) is untouched. -/
def hangup_one (env : Env) (i : Nat) (l : LineState) : LineState :=
  if l.offhook ∧ env.hangupResp i = some true then { l with offhook := false } else l

/-- A fixed environment used by the concrete counterexample and witness
runs: every action succeeds and the channel list holds one identifier with
line 1's device-name prefix between a header and a trailer entry. -/
def env0 : Env :=
  ⟨some true, fun _ => some true, some true,
    some ["x".toList, "PJSIP/autotest1-00000001".toList, "y".toList]⟩

/-- Registry with line 1 off hook and a bound channel. -/
def linesOff1 : Lines :=
  setLine initLines 1
    { initLine with offhook := true, channel := "PJSIP/autotest1-00000001".toList }

/-- Environment whose channel-list query gets no response. -/
def envNoList : Env := ⟨some true, fun _ => some true, some true, none⟩

@[simp] theorem setLine_same (lines : Lines) (i : Nat) (l : LineState) :
    setLine lines i l i = l := by simp [setLine]

theorem setLine_other (lines : Lines) (i : Nat) (l : LineState) (j : Nat) (h : j ≠ i) :
    setLine lines i l j = lines j := by simp [setLine, h]

@[simp] theorem setLine_setLine (lines : Lines) (i : Nat) (l l' : LineState) :
    setLine (setLine lines i l) i l' = setLine lines i l' := by
  funext j; by_cases h : j = i <;> simp [setLine, h]

@[simp] theorem deriveLine_offhook (l : LineState) (n : Nat) :
    (deriveLine l n).offhook = l.offhook := rfl

@[simp] theorem deriveLine_channel (l : LineState) (n : Nat) :
    (deriveLine l n).channel = l.channel := rfl

/-- The DTMF loop issues exactly one PlayDTMF action per remaining
character, in order. -/
theorem play_dtmf_loop_eq_map (ch : List Char) (l : List Char) :
    play_dtmf_loop ch l = l.map (fun c => AmiAction.playDTMF ch c) := by
  induction l with
  | nil => rfl
  | cons c rest ih => simp [play_dtmf_loop, ih]

/-- `List.find?` returns the unique element satisfying the predicate when
there is exactly one. -/
theorem find?_eq_some_of_mem_unique {α : Type} {p : α → Bool} {l : List α} {c : α}
    (hc : c ∈ l) (hpc : p c = true) (huniq : ∀ d ∈ l, p d = true → d = c) :
    l.find? p = some c := by
  induction l with
  | nil => cases hc
  | cons a rest ih =>
    by_cases hpa : p a = true
    · have ha : a = c := huniq a (List.mem_cons_self a rest) hpa
      rw [List.find?_cons_of_pos rest hpa, ha]
    · have hca : c ≠ a := fun h => hpa (h ▸ hpc)
      rw [List.find?_cons_of_neg rest hpa]
      rcases List.mem_cons.mp hc with h | h
      · exact absurd h hca
      · exact ih h (fun d hd hpd => huniq d (List.mem_cons_of_mem a hd) hpd)

theorem hangup_step_lines_ne (env : Env) (acc : HAcc) (j i : Nat) (h : i ≠ j) :
    (hangup_step env acc j).lines i = acc.lines i := by
  unfold hangup_step
  by_cases hoff : (acc.lines j).offhook
  · rcases hr : env.hangupResp j with _ | b
    · simp [hoff, hr]
    · cases b <;> simp [hoff, hr, setLine_other _ _ _ _ h]
  · simp [hoff]

theorem hangup_step_lines_self (env : Env) (acc : HAcc) (i : Nat) :
    (hangup_step env acc i).lines i = hangup_one env i (acc.lines i) := by
  unfold hangup_step hangup_one
  by_cases hoff : (acc.lines i).offhook
  · rcases hr : env.hangupResp i with _ | b
    · simp [hoff, hr]
    · cases b <;> simp [hoff, hr]
  · simp [hoff]

theorem foldl_hangup_lines_not_mem (env : Env) (l : List Nat) (acc : HAcc) (i : Nat)
    (h : i ∉ l) :
    (List.foldl (hangup_step env) acc l).lines i = acc.lines i := by
  induction l generalizing acc with
  | nil => rfl
  | cons j rest ih =>
    have hij : i ≠ j := fun hh => h (hh ▸ List.mem_cons_self j rest)
    have hrest : i ∉ rest := fun hh => h (List.mem_cons_of_mem j hh)
    rw [List.foldl_cons, ih _ hrest, hangup_step_lines_ne env acc j i hij]

theorem foldl_hangup_lines_mem (env : Env) (l : List Nat) (acc : HAcc) (i : Nat)
    (h : i ∈ l) (hnd : l.Nodup) :
    (List.foldl (hangup_step env) acc l).lines i = hangup_one env i (acc.lines i) := by
  induction l generalizing acc with
  | nil => cases h
  | cons j rest ih =>
    rw [List.foldl_cons]
    by_cases hij : i = j
    · subst hij
      have hni : i ∉ rest := (List.nodup_cons.mp hnd).1
      rw [foldl_hangup_lines_not_mem env rest _ i hni, hangup_step_lines_self]
    · rcases List.mem_cons.mp h with h' | h'
      · exact absurd h' hij
      · rw [ih _ h' (List.nodup_cons.mp hnd).2,
          hangup_step_lines_ne env acc j i hij]

/-- Per-slot effect of `hangup_all` on every line 1–9. -/
theorem hangup_all_lines (env : Env) (lines : Lines) (i : Nat) (h1 : 1 ≤ i) (h2 : i ≤ 9) :
    (hangup_all env lines).lines i = hangup_one env i (lines i) := by
  have hmem : i ∈ [1, 2, 3, 4, 5, 6, 7, 8, 9] := by interval_cases i <;> decide
  exact foldl_hangup_lines_mem env _ _ i hmem (by decide)

theorem hangup_step_calls_mono (env : Env) (acc : HAcc) (j : Nat) (x : AmiAction)
    (h : x ∈ acc.calls) : x ∈ (hangup_step env acc j).calls := by
  unfold hangup_step
  by_cases hoff : (acc.lines j).offhook
  · rcases hr : env.hangupResp j with _ | b
    · simpa [hoff, hr] using Or.inl h
    · cases b <;> simpa [hoff, hr] using Or.inl h
  · simpa [hoff] using h

theorem foldl_hangup_calls_mono (env : Env) (l : List Nat) (acc : HAcc) (x : AmiAction)
    (h : x ∈ acc.calls) : x ∈ (List.foldl (hangup_step env) acc l).calls := by
  induction l generalizing acc with
  | nil => exact h
  | cons j rest ih =>
    rw [List.foldl_cons]
    exact ih _ (hangup_step_calls_mono env acc j x h)

theorem hangup_step_calls_self (env : Env) (acc : HAcc) (i : Nat)
    (hoff : (acc.lines i).offhook = true) :
    AmiAction.hangup (acc.lines i).channel 16 ∈ (hangup_step env acc i).calls := by
  unfold hangup_step
  rcases hr : env.hangupResp i with _ | b
  · simp [hoff, hr]
  · cases b <;> simp [hoff, hr]

theorem foldl_hangup_calls_mem (env : Env) (l : List Nat) (acc : HAcc) (i : Nat)
    (h : i ∈ l) (hoff : (acc.lines i).offhook = true) :
    AmiAction.hangup (acc.lines i).channel 16 ∈ (List.foldl (hangup_step env) acc l).calls := by
  induction l generalizing acc with
  | nil => cases h
  | cons j rest ih =>
    rw [List.foldl_cons]
    by_cases hij : i = j
    · subst hij
      exact foldl_hangup_calls_mono env rest _ _ (hangup_step_calls_self env acc i hoff)
    · rcases List.mem_cons.mp h with h' | h'
      · exact absurd h' hij
      · have hl := hangup_step_lines_ne env acc j i hij
        exact hl ▸ ih _ h' (by rw [hl]; exact hoff)

/-- `hangup_all` issues a Hangup action for every currently OffHook line,
whatever the responses to the individual hangups are. -/
theorem hangup_all_calls (env : Env) (lines : Lines) (i : Nat) (h1 : 1 ≤ i) (h2 : i ≤ 9)
    (hoff : (lines i).offhook = true) :
    AmiAction.hangup (lines i).channel 16 ∈ (hangup_all env lines).calls := by
  have hmem : i ∈ [1, 2, 3, 4, 5, 6, 7, 8, 9] := by interval_cases i <;> decide
  exact foldl_hangup_calls_mem env _ _ i hmem hoff

/-- Effect of a successful `o` (originate) command on the registry: the
slot's identity strings are re-derived, it goes off hook, and its channel
binding is updated exactly when channel resolution finds a match. -/
theorem run_o_char (env : Env) (lines : Lines) (n : Nat) (h1 : 1 ≤ n) (h2 : n ≤ 9)
    (ho : env.originateResp = some true) :
    runLines env lines [digitChar n, 'o'] =
      setLine lines n
        (match (find_channel env (deriveLine (lines n) n).devicename).1 with
         | some c => { deriveLine (lines n) n with offhook := true, channel := c }
         | none => { deriveLine (lines n) n with offhook := true }) := by
  obtain ⟨o, hr, f, cl⟩ := env
  dsimp only at ho
  subst ho
  interval_cases n <;>
    · rcases hfc : find_channel ⟨some true, hr, f, cl⟩ (deriveLine (lines _) _).devicename
        with ⟨oc, m⟩
      rcases oc with _ | c <;>
        simp [runLines, run_command, lineCommand, hfc, atoi, atoiDigits, ltrim, isspace, nul,
          digitChar]

/-- Effect of a successful `h` (hangup) command on an OffHook line: the slot
goes on hook; its channel binding is left as it was. -/
theorem run_h_succ (env : Env) (lines : Lines) (n : Nat) (h1 : 1 ≤ n) (h2 : n ≤ 9)
    (hh : env.hangupResp n = some true) (hoff : (lines n).offhook = true) :
    run_command env lines [digitChar n, 'h'] =
      some ⟨setLine lines n { deriveLine (lines n) n with offhook := false },
        [AmiAction.hangup (lines n).channel 16], ["OK"], [], .ok⟩ := by
  obtain ⟨o, hr, f, cl⟩ := env
  dsimp only at hh
  interval_cases n <;>
    simp [run_command, lineCommand, hh, hoff, atoi, atoiDigits, ltrim, isspace, nul, digitChar]

theorem takeWhile_eq_self_of {α : Type} (p : α → Bool) (l : List α)
    (h : ∀ c ∈ l, p c = true) : l.takeWhile p = l := by
  induction l with
  | nil => rfl
  | cons a rest ih =>
    rw [List.takeWhile_cons, if_pos (h a (List.mem_cons_self a rest)),
      ih (fun c hc => h c (List.mem_cons_of_mem a hc))]

theorem runLines_eq_of {env : Env} {lines : Lines} {input : List Char} {r : RunResult}
    (h : run_command env lines input = some r) : runLines env lines input = r.lines := by
  unfold runLines
  rw [h]

/-- Claim C1 (amended): for every line 1–9, starting from the initial all
OnHook registry, a successful origination (`o`) followed by a successful
hangup (`h`) leaves the line's hook state OnHook again, but the stored
channel id is NOT cleared by the hangup transition: it retains whatever the
origination step left bound. -/
theorem o_then_h_onhook_channel_retained (env : Env) (n : Nat) (h1 : 1 ≤ n) (h2 : n ≤ 9)
    (ho : env.originateResp = some true) (hh : env.hangupResp n = some true) :
    ((runLines env initLines [digitChar n, 'o']) n).offhook = true ∧
    ((runLines env (runLines env initLines [digitChar n, 'o']) [digitChar n, 'h']) n).offhook
      = false ∧
    ((runLines env (runLines env initLines [digitChar n, 'o']) [digitChar n, 'h']) n).channel
      = ((runLines env initLines [digitChar n, 'o']) n).channel := by
  have e1 := run_o_char env initLines n h1 h2 ho
  have hoff1 : ((runLines env initLines [digitChar n, 'o']) n).offhook = true := by
    rw [e1]
    rcases (find_channel env (deriveLine (initLines n) n).devicename).1 with _ | c <;> simp
  have e2 := run_h_succ env (runLines env initLines [digitChar n, 'o']) n h1 h2 hh hoff1
  have hrl := runLines_eq_of e2
  refine ⟨hoff1, ?_, ?_⟩ <;> rw [hrl] <;> simp

/-- Claim C1, counterexample to the claim as stated: after `1o` then `1h`
(both successful, resolution bound a channel), the line is OnHook but its
stored channel id still holds the bound identifier — it is not cleared back
to its initial unset (empty) value. -/
theorem o_then_h_channel_not_cleared_cex :
    ((runLines env0 (runLines env0 initLines ['1', 'o']) ['1', 'h']) 1).offhook = false ∧
    ((runLines env0 (runLines env0 initLines ['1', 'o']) ['1', 'h']) 1).channel =
      "PJSIP/autotest1-00000001".toList ∧
    initLine.channel = [] := by
  refine ⟨?_, ?_, rfl⟩ <;> decide

/-- Concrete instance of the C1 theorem at line 1 in `env0`. -/
theorem o_then_h_onhook_channel_retained_witness :
    env0.originateResp = some true ∧ env0.hangupResp 1 = some true ∧
    (((runLines env0 initLines [digitChar 1, 'o']) 1).offhook = true ∧
      ((runLines env0 (runLines env0 initLines [digitChar 1, 'o']) [digitChar 1, 'h']) 1).offhook
        = false ∧
      ((runLines env0 (runLines env0 initLines [digitChar 1, 'o']) [digitChar 1, 'h']) 1).channel
        = ((runLines env0 initLines [digitChar 1, 'o']) 1).channel) :=
  ⟨rfl, rfl, o_then_h_onhook_channel_retained env0 1 (by decide) (by decide) rfl rfl⟩

/-- Claim C2: a leading-digit command parsing to 0 is rejected with the
range message (and is not treated as a global command), exactly as claimed;
but a parsed number outside 1–9 is NOT rejected: `10o` passes the only
check (`!n`) and makes the code index `lines[10]`, one past the end of the
10-element array — modelled as the undefined outcome `none`. -/
theorem zero_rejected_ten_out_of_bounds (env : Env) (lines : Lines) :
    run_command env lines ['0', 'o'] =
      some ⟨lines, [], ["Line number must be between 1 and 9"], [], .ok⟩ ∧
    run_command env lines ['1', '0', 'o'] = none :=
  ⟨rfl, rfl⟩

/-- Claim C3 (amended): the three termination paths behave differently.
The interrupt-signal handler (`restore_term`) is the only one that hangs up
OffHook lines: it runs `hangup_all`, which per line 1–9 hangs up an OffHook
line exactly when its Hangup response is successful (tolerating failures —
an OffHook line always gets a Hangup action issued, and other lines are
untouched), then disconnects and exits with failure status. The
forced-disconnect callback only prints a notice, restores the terminal and
exits with failure status — it hangs up nothing and does not disconnect.
The normal `q`/EOF exit disconnects and restores the terminal without
hanging up any line, ending with success status. -/
theorem cleanup_triggers (env : Env) (lines : Lines) (n : Nat) (h1 : 1 ≤ n) (h2 : n ≤ 9) :
    ((restore_term env lines).2 n = hangup_one env n (lines n) ∧
      ((lines n).offhook = true →
        TStep.amiCall (AmiAction.hangup (lines n).channel 16) ∈ (restore_term env lines).1)) ∧
    (simple_disconnect_callback lines =
      ([.msg "AMI was forcibly disconnected...", .restoreTerm, .exitProcess true], lines)) ∧
    (multidialer_normal_exit lines =
      ([.amiDisconnect, .restoreTerm, .exitProcess false], lines)) := by
  refine ⟨⟨?_, fun hoff => ?_⟩, rfl, rfl⟩
  · exact hangup_all_lines env lines n h1 h2
  · have hc := hangup_all_calls env lines n h1 h2 hoff
    have hmem2 : TStep.amiCall (AmiAction.hangup (lines n).channel 16) ∈
        (hangup_all env lines).calls.map TStep.amiCall := List.mem_map.mpr ⟨_, hc, rfl⟩
    simp only [restore_term, List.mem_append]
    exact Or.inl (Or.inl (Or.inr hmem2))

/-- Claim C3, counterexample to the claim as stated: with line 1 OffHook,
the forced-disconnect trigger performs no hangup at all — its trace holds
no AMI action and line 1 is still OffHook afterwards. -/
theorem disconnect_no_hangup_cex :
    (linesOff1 1).offhook = true ∧
    (simple_disconnect_callback linesOff1).1 =
      [TStep.msg "AMI was forcibly disconnected...", .restoreTerm, .exitProcess true] ∧
    ((simple_disconnect_callback linesOff1).2 1).offhook = true :=
  ⟨by decide, rfl, by decide⟩

/-- Concrete instance of the C3 theorem at line 1 with line 1 OffHook. -/
theorem cleanup_triggers_witness :
    (1 : Nat) ≤ 1 ∧
    (((restore_term env0 linesOff1).2 1 = hangup_one env0 1 (linesOff1 1) ∧
      ((linesOff1 1).offhook = true →
        TStep.amiCall (AmiAction.hangup (linesOff1 1).channel 16) ∈
          (restore_term env0 linesOff1).1)) ∧
     (simple_disconnect_callback linesOff1 =
       ([.msg "AMI was forcibly disconnected...", .restoreTerm, .exitProcess true], linesOff1)) ∧
     (multidialer_normal_exit linesOff1 =
       ([.amiDisconnect, .restoreTerm, .exitProcess false], linesOff1))) :=
  ⟨le_refl 1, cleanup_triggers env0 linesOff1 1 (by decide) (by decide)⟩

/-- Claim C4 (amended): the parser truncates at the first `;` and then tests
the FIRST character for a decimal digit without skipping leading whitespace;
an input with whitespace before the digits, such as `" 1o"`, therefore falls
into the global-command branch (rejected as an unknown global command) and
does not parse like `"1o"`. Whitespace is skipped only between the line
number and the verb, so `"1 o"` does parse exactly like `"1o"`. -/
theorem no_whitespace_skip_before_digit (env : Env) (lines : Lines) :
    runResultD env lines [' ', '1', 'o'] =
      ⟨lines, [], ["Unknown global command ' 1o'"], [], .ok⟩ ∧
    run_command env lines ['1', ' ', 'o'] = run_command env lines ['1', 'o'] :=
  ⟨rfl, rfl⟩

/-- Claim C4, counterexample to the claim as stated: `" 1o"` is answered
with an unknown-global-command message and issues no action, while `"1o"`
originates and reports OK — they do not parse to the same command. -/
theorem leading_whitespace_not_line_command_cex :
    Option.map RunResult.msgs (run_command env0 initLines [' ', '1', 'o']) =
      some ["Unknown global command ' 1o'"] ∧
    Option.map RunResult.calls (run_command env0 initLines [' ', '1', 'o']) = some [] ∧
    Option.map RunResult.msgs (run_command env0 initLines ['1', 'o']) = some ["OK"] := by
  refine ⟨rfl, rfl, ?_⟩
  decide

/-- Claim C5 (amended): global-command matching is case-insensitive for the
`ms`, `q` and `k` tokens (their uppercase forms behave identically), but the
seconds-sleep token is matched case-sensitively against lowercase `s`:
`"s5"` blocks for 5 seconds while `"S5"` is rejected as an unknown global
command and sleeps not at all. -/
theorem global_token_case_sensitivity (env : Env) (lines : Lines) :
    (runResultD env lines ['s', '5']).sleepsMs = [5000] ∧
    (runResultD env lines ['s', '5']).ret = .ok ∧
    (runResultD env lines ['S', '5']).sleepsMs = [] ∧
    (runResultD env lines ['S', '5']).msgs = ["Unknown global command 'S5'"] ∧
    runResultD env lines ['M', 'S', '7', '5', '0'] =
      runResultD env lines ['m', 's', '7', '5', '0'] ∧
    runResultD env lines ['Q'] = runResultD env lines ['q'] ∧
    runResultD env lines ['K'] = runResultD env lines ['k'] :=
  ⟨rfl, rfl, rfl, rfl, rfl, rfl, rfl⟩

/-- Claim C5, counterexample to the claim as stated: `"S5"` does not behave
like `"s5"` — it sleeps not at all and is rejected as unknown. -/
theorem uppercase_sleep_rejected_cex :
    (runResultD env0 initLines ['s', '5']).sleepsMs = [5000] ∧
    (runResultD env0 initLines ['S', '5']).sleepsMs = [] ∧
    (runResultD env0 initLines ['S', '5']).msgs = ["Unknown global command 'S5'"] :=
  ⟨rfl, rfl, rfl⟩

/-- Claim C6: when origination succeeds but channel resolution fails (null
channel-list response, or no listed identifier with the device-name as a
string prefix of it), the line is left OffHook — the hook-state transition
is not rolled back — and its channel binding is unchanged (nothing newly
bound). -/
theorem originate_resolution_failure_no_rollback (env : Env) (lines : Lines) (n : Nat)
    (h1 : 1 ≤ n) (h2 : n ≤ 9) (ho : env.originateResp = some true)
    (hfail : (find_channel env (deriveLine (lines n) n).devicename).1 = none) :
    ((runLines env lines [digitChar n, 'o']) n).offhook = true ∧
    ((runLines env lines [digitChar n, 'o']) n).channel = (lines n).channel := by
  rw [run_o_char env lines n h1 h2 ho, hfail]
  simp

/-- Concrete instance of the C6 theorem: line 1, no channel-list response. -/
theorem originate_resolution_failure_no_rollback_witness :
    envNoList.originateResp = some true ∧
    (find_channel envNoList (deriveLine (initLines 1) 1).devicename).1 = none ∧
    (((runLines envNoList initLines [digitChar 1, 'o']) 1).offhook = true ∧
      ((runLines envNoList initLines [digitChar 1, 'o']) 1).channel = (initLines 1).channel) :=
  ⟨rfl, rfl,
    originate_resolution_failure_no_rollback envNoList initLines 1 (by decide) (by decide)
      rfl rfl⟩

/-- Claim C7: an `h`, `f` or `d` command aimed at an OnHook line is rejected
with the on-hook error message before any AMI action is issued; the line's
hook state and channel id are unchanged and the command returns 0 (the
session loop continues). -/
theorem onhook_action_rejected (env : Env) (lines : Lines) (n : Nat) (v : Char)
    (tail : List Char) (h1 : 1 ≤ n) (h2 : n ≤ 9) (hoff : (lines n).offhook = false)
    (hv : v ∈ ['h', 'f', 'd']) :
    run_command env lines (digitChar n :: v :: tail) =
      some ⟨setLine lines n (deriveLine (lines n) n), [],
        ["Can't do this action on on-hook line"], [], .ok⟩ ∧
    ((runResultD env lines (digitChar n :: v :: tail)).lines n).offhook = (lines n).offhook ∧
    ((runResultD env lines (digitChar n :: v :: tail)).lines n).channel = (lines n).channel := by
  have key : run_command env lines (digitChar n :: v :: tail) =
      some ⟨setLine lines n (deriveLine (lines n) n), [],
        ["Can't do this action on on-hook line"], [], .ok⟩ := by
    simp only [List.mem_cons, List.not_mem_nil, or_false] at hv
    rcases hv with rfl | rfl | rfl <;>
      (interval_cases n <;>
        simp [run_command, lineCommand, hoff, atoi, atoiDigits, ltrim, isspace, nul, digitChar])
  refine ⟨key, ?_, ?_⟩ <;> simp [runResultD, key]

/-- Concrete instance of the C7 theorem: `2f` with line 2 OnHook. -/
theorem onhook_action_rejected_witness :
    (initLines 2).offhook = false ∧ 'f' ∈ (['h', 'f', 'd'] : List Char) ∧
    (run_command env0 initLines (digitChar 2 :: 'f' :: []) =
      some ⟨setLine initLines 2 (deriveLine (initLines 2) 2), [],
        ["Can't do this action on on-hook line"], [], .ok⟩ ∧
     ((runResultD env0 initLines (digitChar 2 :: 'f' :: [])).lines 2).offhook =
       (initLines 2).offhook ∧
     ((runResultD env0 initLines (digitChar 2 :: 'f' :: [])).lines 2).channel =
       (initLines 2).channel) :=
  ⟨rfl, by decide,
    onhook_action_rejected env0 initLines 2 'f' [] (by decide) (by decide) rfl (by decide)⟩

/-- Claim C8: the resolver scans the channel-list entries excluding the
first and last (header/trailer framing) in order; when exactly one interior
identifier has the device name as a string prefix (and fits the 128-byte
channel buffer), resolution succeeds and binds exactly that identifier. -/
theorem resolver_binds_unique_match (env : Env) (pfx : List Char) (entries : List (List Char))
    (c : List Char) (hcl : env.channelList = some entries)
    (hmem : c ∈ (entries.drop 1).dropLast) (hpfx : pfx.isPrefixOf c = true)
    (huniq : ∀ d ∈ (entries.drop 1).dropLast, pfx.isPrefixOf d = true → d = c)
    (hlen : c.length ≤ 127) :
    find_channel env pfx = (some c, []) := by
  unfold find_channel
  rw [hcl]
  dsimp only
  rw [find?_eq_some_of_mem_unique (p := fun d => pfx.isPrefixOf d) hmem hpfx huniq]
  dsimp only
  rw [List.take_of_length_le hlen]

/-- Concrete instance of the C8 theorem on `env0`'s three-entry list. -/
theorem resolver_binds_unique_match_witness :
    env0.channelList = some ["x".toList, "PJSIP/autotest1-00000001".toList, "y".toList] ∧
    find_channel env0 "PJSIP/autotest1".toList =
      (some "PJSIP/autotest1-00000001".toList, []) :=
  ⟨rfl,
    resolver_binds_unique_match env0 "PJSIP/autotest1".toList
      ["x".toList, "PJSIP/autotest1-00000001".toList, "y".toList]
      "PJSIP/autotest1-00000001".toList rfl (by decide) (by decide) (by decide) (by decide)⟩

/-- Claim C9: a `dt` command on an OffHook line issues exactly one PlayDTMF
action per character of the (comment-free) argument tail, in order, on the
line's bound channel, with no messages printed. -/
theorem dtmf_one_call_per_digit (env : Env) (lines : Lines) (n : Nat) (tail : List Char)
    (h1 : 1 ≤ n) (h2 : n ≤ 9) (hoff : (lines n).offhook = true) (hsemi : ';' ∉ tail) :
    run_command env lines (digitChar n :: 'd' :: 't' :: tail) =
      some ⟨setLine lines n (deriveLine (lines n) n),
        tail.map (fun c => AmiAction.playDTMF (lines n).channel c), [], [], .ok⟩ := by
  have htw : List.takeWhile (fun c => !decide (c = ';')) tail = tail :=
    takeWhile_eq_self_of _ _ (fun c hc => by
      have hne : c ≠ ';' := fun h => hsemi (h ▸ hc)
      simp [hne])
  interval_cases n <;>
    simp [run_command, lineCommand, hoff, atoi, atoiDigits, ltrim, isspace, nul, digitChar,
      htw, play_dtmf_loop_eq_map]

/-- Concrete instance of the C9 theorem: `1dt47` with line 1 OffHook issues
exactly the two digit calls `'4'` then `'7'`. -/
theorem dtmf_one_call_per_digit_witness :
    (linesOff1 1).offhook = true ∧ ';' ∉ (['4', '7'] : List Char) ∧
    run_command env0 linesOff1 (digitChar 1 :: 'd' :: 't' :: ['4', '7']) =
      some ⟨setLine linesOff1 1 (deriveLine (linesOff1 1) 1),
        (['4', '7'] : List Char).map (fun c => AmiAction.playDTMF (linesOff1 1).channel c),
        [], [], .ok⟩ :=
  ⟨by decide, by decide,
    dtmf_one_call_per_digit env0 linesOff1 1 ['4', '7'] (by decide) (by decide) (by decide)
      (by decide)⟩

/-- Claim C10: the dial-type character after verb `d` is matched
case-sensitively (unlike the verb, which is case-folded): uppercase `T` or
`P` yields the invalid-dial-type message and no digit actions, while
lowercase `p` selects (unsupported) pulse dialing and lowercase `t` selects
DTMF dialing. -/
theorem dial_type_case_sensitive (env : Env) (lines : Lines) (n : Nat) (tail : List Char)
    (h1 : 1 ≤ n) (h2 : n ≤ 9) (hoff : (lines n).offhook = true) (hsemi : ';' ∉ tail) :
    run_command env lines (digitChar n :: 'd' :: 'T' :: tail) =
      some ⟨setLine lines n (deriveLine (lines n) n), [],
        ["Invalid dial type T"], [], .ok⟩ ∧
    run_command env lines (digitChar n :: 'd' :: 'P' :: tail) =
      some ⟨setLine lines n (deriveLine (lines n) n), [],
        ["Invalid dial type P"], [], .ok⟩ ∧
    run_command env lines (digitChar n :: 'd' :: 'p' :: tail) =
      some ⟨setLine lines n (deriveLine (lines n) n), [],
        ["Dial pulse not yet supported"], [], .ok⟩ ∧
    run_command env lines (digitChar n :: 'd' :: 't' :: tail) =
      some ⟨setLine lines n (deriveLine (lines n) n),
        tail.map (fun c => AmiAction.playDTMF (lines n).channel c), [], [], .ok⟩ := by
  have htw : List.takeWhile (fun c => !decide (c = ';')) tail = tail :=
    takeWhile_eq_self_of _ _ (fun c hc => by
      have hne : c ≠ ';' := fun h => hsemi (h ▸ hc)
      simp [hne])
  refine ⟨?_, ?_, ?_, ?_⟩ <;>
    (interval_cases n <;>
      simp [run_command, lineCommand, hoff, atoi, atoiDigits, ltrim, isspace, nul, digitChar,
        htw, play_dtmf_loop_eq_map])

/-- Concrete instance of the C10 theorem: `1dT47` is rejected with the
invalid-dial-type message and issues no digit calls, while `1dt47` issues
them. -/
theorem dial_type_case_sensitive_witness :
    (linesOff1 1).offhook = true ∧
    (run_command env0 linesOff1 (digitChar 1 :: 'd' :: 'T' :: ['4', '7']) =
      some ⟨setLine linesOff1 1 (deriveLine (linesOff1 1) 1), [],
        ["Invalid dial type T"], [], .ok⟩ ∧
     run_command env0 linesOff1 (digitChar 1 :: 'd' :: 'P' :: ['4', '7']) =
      some ⟨setLine linesOff1 1 (deriveLine (linesOff1 1) 1), [],
        ["Invalid dial type P"], [], .ok⟩ ∧
     run_command env0 linesOff1 (digitChar 1 :: 'd' :: 'p' :: ['4', '7']) =
      some ⟨setLine linesOff1 1 (deriveLine (linesOff1 1) 1), [],
        ["Dial pulse not yet supported"], [], .ok⟩ ∧
     run_command env0 linesOff1 (digitChar 1 :: 'd' :: 't' :: ['4', '7']) =
      some ⟨setLine linesOff1 1 (deriveLine (linesOff1 1) 1),
        (['4', '7'] : List Char).map (fun c => AmiAction.playDTMF (linesOff1 1).channel c),
        [], [], .ok⟩) :=
  ⟨by decide,
    dial_type_case_sensitive env0 linesOff1 1 ['4', '7'] (by decide) (by decide) (by decide)
      (by decide)⟩

end AstMultiDialer
